import Mathlib

/-!
Verification of the pymazda `Connection` class (src/pymazda/connection.py).

The file shallowly embeds the connection module in Lean 4:

* Pure helpers (timestamp slicing, payload signing, key derivation) become
  Lean functions over `String`/`List Nat` (byte lists).
* `hashlib.sha256` (Python standard library) is implemented concretely,
  since several claims depend on the shape of its hex digest.
* `hashlib.md5` (Python standard library, external to the repository) only
  feeds derived key material whose value no claim inspects; it is passed in
  as a function parameter.
* `pymazda.crypto_utils` is part of the repository but absent from `src/`;
  its AES-128-CBC + base64 primitives are modelled from the spec (section
  4.1), with the AES block transformation abstracted as an explicit
  parameter (an invertible map on 16-byte blocks) and CBC chaining, PKCS#7
  padding and base64 coding implemented concretely.
* The stateful request pipeline (`__api_request_retry`, `__send_api_request`,
  `__retrieve_keys`, `login`, the two `ensure` helpers) becomes a fuel-based
  interpreter over an explicit `World` state plus an oracle `Env` supplying
  server responses; ghost `Event`s record sends, key retrievals and logins.

All recursion is structural so that every definition evaluates inside the
kernel.
-/

namespace Pymazda

/-! ### Python string helpers -/

/-- Python `str.upper()` restricted to ASCII, which is all the code feeds it. -/
def pyUpper (s : String) : String := ⟨s.data.map Char.toUpper⟩

/-- Python `str.lower()` restricted to ASCII. -/
def pyLower (s : String) : String := ⟨s.data.map Char.toLower⟩

/-- Python slice `s[n:]`. -/
def pyDrop (n : Nat) (s : String) : String := ⟨s.data.drop n⟩

/-- Python slice `s[a:b]` for `a ≤ b`. -/
def pySlice (a b : Nat) (s : String) : String := ⟨(s.data.drop a).take (b - a)⟩

/-- UTF-8 encoding of one character, as in Python `str.encode("utf-8")`. -/
def charUtf8 (c : Char) : List Nat :=
  let n := c.toNat
  if n < 128 then [n]
  else if n < 2048 then [192 + n / 64, 128 + n % 64]
  else if n < 65536 then [224 + n / 4096, 128 + (n / 64) % 64, 128 + n % 64]
  else [240 + n / 262144, 128 + (n / 4096) % 64, 128 + (n / 64) % 64, 128 + n % 64]

/-- Python `s.encode("utf-8")` as a byte list. -/
def strBytes (s : String) : List Nat := s.data.flatMap charUtf8

theorem char_toNat_lt (c : Char) : c.toNat < 1114112 := by
  have h := c.valid
  rcases h with h | ⟨_, h2⟩
  · exact Nat.lt_trans h (by norm_num)
  · exact h2

theorem charUtf8_lt_256 (c : Char) : ∀ b ∈ charUtf8 c, b < 256 := by
  intro b hb
  have hn := char_toNat_lt c
  simp only [charUtf8] at hb
  split_ifs at hb <;>
    simp only [List.mem_cons, List.not_mem_nil, or_false] at hb <;>
    omega

theorem strBytes_lt_256 (s : String) : ∀ b ∈ strBytes s, b < 256 := by
  intro b hb
  simp only [strBytes, List.mem_flatMap] at hb
  obtain ⟨c, _, hc⟩ := hb
  exact charUtf8_lt_256 c b hc

theorem xor_lt_256 {x y : Nat} (hx : x < 256) (hy : y < 256) : x ^^^ y < 256 := by
  have h : x ^^^ y < 2 ^ 8 := Nat.xor_lt_two_pow (by omega) (by omega)
  norm_num at h
  exact h

/-! ### Constants (src/pymazda/connection.py lines 13-25) -/

def APP_CODE : String := "202007270941270111799"
def BASE_URL : String := "https://0cxo7m58.mazda.com/prod/"
def USHER_URL : String := "https://ptznwbh8.mazda.com/appapi/v1/"
def IV : String := "0102030405060708"
def SIGNATURE_MD5 : String := "C383D8C4D279B78130AD52DC71D95CAA"
def APP_PACKAGE_ID : String := "com.interrait.mymazda"
def DEVICE_ID : String := "D9E89AFC-BD3C-309F-A48C-A2A9466DFE9C"
def USER_AGENT_BASE_API : String := "MyMazda-Android/7.1.0"
def USER_AGENT_USHER_API : String := "MyMazda/7.1.0 (Google Pixel 3a; Android 11)"
def APP_OS : String := "Android"
def APP_VERSION : String := "7.1.0"
def MAX_RETRIES : Nat := 4

/-! ### SHA-256 (Python `hashlib.sha256`, implemented concretely) -/

/-- Word arithmetic modulo 2^32. -/
def add32 (a b : Nat) : Nat := (a + b) % 4294967296

/-- Rotate a 32-bit word right by n bits. -/
def rotr32 (n x : Nat) : Nat := ((x >>> n) ||| ((x <<< (32 - n)) % 4294967296)) % 4294967296

/-- SHA-256 round constants. -/
def sha256K : List Nat :=
  [1116352408, 1899447441, 3049323471, 3921009573, 961987163,
   1508970993, 2453635748, 2870763221, 3624381080, 310598401,
   607225278, 1426881987, 1925078388, 2162078206, 2614888103,
   3248222580, 3835390401, 4022224774, 264347078, 604807628,
   770255983, 1249150122, 1555081692, 1996064986, 2554220882,
   2821834349, 2952996808, 3210313671, 3336571891, 3584528711,
   113926993, 338241895, 666307205, 773529912, 1294757372,
   1396182291, 1695183700, 1986661051, 2177026350, 2456956037,
   2730485921, 2820302411, 3259730800, 3345764771, 3516065817,
   3600352804, 4094571909, 275423344, 430227734, 506948616,
   659060556, 883997877, 958139571, 1322822218, 1537002063,
   1747873779, 1955562222, 2024104815, 2227730452, 2361852424,
   2428436474, 2756734187, 3204031479, 3329325298]

/-- Message-schedule extension; `ws` holds the schedule so far, most recent word first. -/
def sha256Extend : Nat → List Nat → List Nat
  | 0, ws => ws
  | k + 1, ws =>
    let w2 := ws.getD 1 0
    let w7 := ws.getD 6 0
    let w15 := ws.getD 14 0
    let w16 := ws.getD 15 0
    let s0 := (rotr32 7 w15) ^^^ (rotr32 18 w15) ^^^ (w15 >>> 3)
    let s1 := (rotr32 17 w2) ^^^ (rotr32 19 w2) ^^^ (w2 >>> 10)
    sha256Extend k (add32 (add32 w16 s0) (add32 w7 s1) :: ws)

/-- Hash state: the eight 32-bit working variables. -/
structure Sha256St where
  a : Nat
  b : Nat
  c : Nat
  d : Nat
  e : Nat
  f : Nat
  g : Nat
  h : Nat
  deriving DecidableEq

/-- One compression round. -/
def sha256Round (st : Sha256St) (kw : Nat × Nat) : Sha256St :=
  let S1 := (rotr32 6 st.e) ^^^ (rotr32 11 st.e) ^^^ (rotr32 25 st.e)
  let ch := (st.e &&& st.f) ^^^ ((st.e ^^^ 4294967295) &&& st.g)
  let temp1 := add32 (add32 (add32 st.h S1) (add32 ch kw.1)) kw.2
  let S0 := (rotr32 2 st.a) ^^^ (rotr32 13 st.a) ^^^ (rotr32 22 st.a)
  let maj := (st.a &&& st.b) ^^^ (st.a &&& st.c) ^^^ (st.b &&& st.c)
  let temp2 := add32 S0 maj
  ⟨add32 temp1 temp2, st.a, st.b, st.c, add32 st.d temp1, st.e, st.f, st.g⟩

/-- Big-endian 32-bit words from bytes, four bytes at a time. -/
def bytesToWords : List Nat → List Nat
  | b1 :: b2 :: b3 :: b4 :: rest =>
    (((b1 * 256 + b2) * 256 + b3) * 256 + b4) :: bytesToWords rest
  | _ => []

/-- Process one 64-byte block. -/
def sha256Block (st : Sha256St) (block : List Nat) : Sha256St :=
  let w := (sha256Extend 48 (bytesToWords block).reverse).reverse
  let r := (sha256K.zip w).foldl sha256Round st
  ⟨add32 st.a r.a, add32 st.b r.b, add32 st.c r.c, add32 st.d r.d,
   add32 st.e r.e, add32 st.f r.f, add32 st.g r.g, add32 st.h r.h⟩

/-- Split into 64-byte blocks; the fuel is an upper bound on the length. -/
def toBlocks64 : Nat → List Nat → List (List Nat)
  | 0, _ => []
  | fuel + 1, l => if l = [] then [] else l.take 64 :: toBlocks64 fuel (l.drop 64)

/-- Merkle–Damgård padding for SHA-256. -/
def sha256Pad (msg : List Nat) : List Nat :=
  let len := msg.length
  let zeros := (119 - len % 64) % 64
  let bitLen := 8 * len
  msg ++ [128] ++ List.replicate zeros 0 ++
    [bitLen >>> 56 % 256, bitLen >>> 48 % 256, bitLen >>> 40 % 256, bitLen >>> 32 % 256,
     bitLen >>> 24 % 256, bitLen >>> 16 % 256, bitLen >>> 8 % 256, bitLen % 256]

/-- Big-endian bytes of a 32-bit word. -/
def wordBytesBE (w : Nat) : List Nat :=
  [w >>> 24 % 256, w >>> 16 % 256, w >>> 8 % 256, w % 256]

/-- SHA-256 digest of a byte list: 32 bytes. -/
def sha256Bytes (msg : List Nat) : List Nat :=
  let padded := sha256Pad msg
  let final := (toBlocks64 padded.length padded).foldl sha256Block
    ⟨1779033703, 3144134277, 1013904242, 2773480762,
     1359893119, 2600822924, 528734635, 1541459225⟩
  wordBytesBE final.a ++ wordBytesBE final.b ++ wordBytesBE final.c ++ wordBytesBE final.d ++
    wordBytesBE final.e ++ wordBytesBE final.f ++ wordBytesBE final.g ++ wordBytesBE final.h

/-- Lower-case hex digit for `n % 16`. -/
def hexDig (n : Nat) : Char := "0123456789abcdef".data.getD (n % 16) '0'

/-- Lower-case hex rendering of a byte list. -/
def bytesToHex (l : List Nat) : List Char :=
  l.flatMap (fun b => [hexDig (b / 16), hexDig b])

/-- Python `hashlib.sha256(s.encode()).hexdigest()`. -/
def sha256Hex (s : String) : String := ⟨bytesToHex (sha256Bytes (strBytes s))⟩

theorem wordBytesBE_length (w : Nat) : (wordBytesBE w).length = 4 := rfl

theorem sha256Bytes_length (msg : List Nat) : (sha256Bytes msg).length = 32 := by
  simp [sha256Bytes, wordBytesBE]

theorem bytesToHex_length (l : List Nat) : (bytesToHex l).length = 2 * l.length := by
  induction l with
  | nil => rfl
  | cons b t ih => simp [bytesToHex, List.flatMap_cons] at ih ⊢; omega

theorem sha256Hex_length (s : String) : (sha256Hex s).length = 64 := by
  show (bytesToHex (sha256Bytes (strBytes s))).length = 64
  rw [bytesToHex_length, sha256Bytes_length]

theorem hexDig_mem (n : Nat) : hexDig n ∈ "0123456789abcdef".data := by
  have h : n % 16 < 16 := Nat.mod_lt _ (by omega)
  unfold hexDig
  interval_cases h : n % 16 <;> decide

theorem sha256Hex_upper_hexdigits (s : String) :
    ∀ c ∈ (pyUpper (sha256Hex s)).data, c ∈ "0123456789ABCDEF".data := by
  intro c hc
  simp only [pyUpper, List.mem_map] at hc
  obtain ⟨c0, hc0, rfl⟩ := hc
  have hmem : c0 ∈ "0123456789abcdef".data := by
    simp only [sha256Hex, bytesToHex, List.mem_flatMap] at hc0
    obtain ⟨b, _, hb⟩ := hc0
    simp only [List.mem_cons, List.not_mem_nil, or_false] at hb
    rcases hb with rfl | rfl <;> exact hexDig_mem _
  fin_cases hmem <;> decide

/-! ### Base64 (Python `base64.b64encode` / `b64decode`) -/

/-- Standard base64 alphabet. -/
def b64Alphabet : List Char :=
  "ABCDEFGHIJKLMNOPQRSTUVWXYZabcdefghijklmnopqrstuvwxyz0123456789+/".data

/-- Character for a sextet value. -/
def b64Char (n : Nat) : Char := b64Alphabet.getD n '?'

def b64ValAux : List Char → Nat → Char → Option Nat
  | [], _, _ => none
  | a :: rest, i, c => if a = c then some i else b64ValAux rest (i + 1) c

/-- Sextet value of an alphabet character, `none` for anything else. -/
def b64Val (c : Char) : Option Nat := b64ValAux b64Alphabet 0 c

/-- Base64 encoding of a byte list, three bytes to four characters with
trailing padding. -/
def base64EncodeAux : List Nat → List Char
  | [] => []
  | [b1] => [b64Char (b1 / 4), b64Char (b1 % 4 * 16), '=', '=']
  | [b1, b2] => [b64Char (b1 / 4), b64Char (b1 % 4 * 16 + b2 / 16), b64Char (b2 % 16 * 4), '=']
  | b1 :: b2 :: b3 :: rest =>
    b64Char (b1 / 4) :: b64Char (b1 % 4 * 16 + b2 / 16) ::
      b64Char (b2 % 16 * 4 + b3 / 64) :: b64Char (b3 % 64) :: base64EncodeAux rest

def base64Encode (l : List Nat) : String := ⟨base64EncodeAux l⟩

/-- Base64 decoding; rejects malformed input with `none`, as the spec requires
truncated or invalid base64 to be a structural failure. -/
def base64DecodeAux : List Char → Option (List Nat)
  | [] => some []
  | c1 :: c2 :: c3 :: c4 :: rest =>
    if c4 = '=' then
      if rest = [] then
        if c3 = '=' then
          match b64Val c1, b64Val c2 with
          | some s1, some s2 => some [s1 * 4 + s2 / 16]
          | _, _ => none
        else
          match b64Val c1, b64Val c2, b64Val c3 with
          | some s1, some s2, some s3 => some [s1 * 4 + s2 / 16, s2 % 16 * 16 + s3 / 4]
          | _, _, _ => none
      else none
    else
      match b64Val c1, b64Val c2, b64Val c3, b64Val c4 with
      | some s1, some s2, some s3, some s4 =>
        (base64DecodeAux rest).map
          (fun tail => (s1 * 4 + s2 / 16) :: (s2 % 16 * 16 + s3 / 4) :: (s3 % 4 * 64 + s4) :: tail)
      | _, _, _, _ => none
  | _ => none

def base64Decode (s : String) : Option (List Nat) := base64DecodeAux s.data

theorem b64Val_b64Char (n : Nat) (h : n < 64) : b64Val (b64Char n) = some n := by
  interval_cases n <;> decide

theorem b64Char_ne_eq (n : Nat) (h : n < 64) : b64Char n ≠ '=' := by
  interval_cases n <;> decide

theorem base64_roundtrip_aux :
    ∀ (n : Nat) (l : List Nat), l.length ≤ n → (∀ b ∈ l, b < 256) →
      base64DecodeAux (base64EncodeAux l) = some l := by
  intro n
  induction n with
  | zero =>
    intro l hlen _
    have hnil : l = [] := List.eq_nil_of_length_eq_zero (by omega)
    subst hnil; rfl
  | succ m ih =>
    intro l hlen hb
    rcases l with _ | ⟨b1, _ | ⟨b2, _ | ⟨b3, rest⟩⟩⟩
    · rfl
    · have h1 : b1 < 256 := hb b1 (by simp)
      show base64DecodeAux [b64Char (b1 / 4), b64Char (b1 % 4 * 16), '=', '='] = some [b1]
      rw [base64DecodeAux]
      rw [if_pos rfl, if_pos rfl, if_pos rfl,
        b64Val_b64Char _ (by omega), b64Val_b64Char _ (by omega)]
      simp only [Option.some.injEq, List.cons.injEq, eq_self_iff_true, and_true]
      omega
    · have h1 : b1 < 256 := hb b1 (by simp)
      have h2 : b2 < 256 := hb b2 (by simp)
      show base64DecodeAux
          [b64Char (b1 / 4), b64Char (b1 % 4 * 16 + b2 / 16), b64Char (b2 % 16 * 4), '='] =
        some [b1, b2]
      rw [base64DecodeAux]
      rw [if_pos rfl, if_pos rfl, if_neg (b64Char_ne_eq _ (by omega)),
        b64Val_b64Char _ (by omega), b64Val_b64Char _ (by omega), b64Val_b64Char _ (by omega)]
      simp only [Option.some.injEq, List.cons.injEq, eq_self_iff_true, and_true]
      omega
    · have h1 : b1 < 256 := hb b1 (by simp)
      have h2 : b2 < 256 := hb b2 (by simp)
      have h3 : b3 < 256 := hb b3 (by simp)
      show base64DecodeAux (b64Char (b1 / 4) :: b64Char (b1 % 4 * 16 + b2 / 16) ::
          b64Char (b2 % 16 * 4 + b3 / 64) :: b64Char (b3 % 64) :: base64EncodeAux rest) =
        some (b1 :: b2 :: b3 :: rest)
      rw [base64DecodeAux]
      rw [if_neg (b64Char_ne_eq _ (by omega)),
        b64Val_b64Char _ (by omega), b64Val_b64Char _ (by omega),
        b64Val_b64Char _ (by omega), b64Val_b64Char _ (by omega)]
      have hrest : base64DecodeAux (base64EncodeAux rest) = some rest := by
        apply ih rest (by simp at hlen; omega)
        intro b hbm
        exact hb b (by simp [hbm])
      rw [hrest]
      simp only [Option.map_some', Option.some.injEq, List.cons.injEq, eq_self_iff_true,
        and_true]
      omega

theorem base64_roundtrip (l : List Nat) (hb : ∀ b ∈ l, b < 256) :
    base64Decode (base64Encode l) = some l := by
  show base64DecodeAux (base64EncodeAux l) = some l
  exact base64_roundtrip_aux l.length l (le_refl _) hb

/-! ### PKCS#7 padding, 16-byte chunking, CBC chaining -/

/-- PKCS#7 padding to a multiple of 16 bytes. -/
def pkcs7Pad (buf : List Nat) : List Nat :=
  let n := 16 - buf.length % 16
  buf ++ List.replicate n n

/-- PKCS#7 unpadding with validation; `none` on invalid padding. -/
def pkcs7Unpad (buf : List Nat) : Option (List Nat) :=
  match buf.getLast? with
  | none => none
  | some n =>
    if n = 0 || 16 < n || buf.length < n then none
    else if (buf.drop (buf.length - n)).all (· == n) then some (buf.take (buf.length - n))
    else none

/-- Split into 16-byte chunks; the fuel is an upper bound on the length. -/
def chunks16 : Nat → List Nat → List (List Nat)
  | 0, _ => []
  | fuel + 1, l => if l = [] then [] else l.take 16 :: chunks16 fuel (l.drop 16)

/-- Byte-wise xor of two blocks. -/
def xorBlock (a b : List Nat) : List Nat := List.zipWith (fun x y => x ^^^ y) a b

/-- CBC encryption over a list of plaintext blocks; `prev` is the previous
ciphertext block (initially the IV). -/
def cbcEncAux (E : String → List Nat → List Nat) (key : String) :
    List Nat → List (List Nat) → List (List Nat)
  | _, [] => []
  | prev, b :: rest =>
    let c := E key (xorBlock prev b)
    c :: cbcEncAux E key c rest

/-- CBC decryption over a list of ciphertext blocks. -/
def cbcDecAux (D : String → List Nat → List Nat) (key : String) :
    List Nat → List (List Nat) → List (List Nat)
  | _, [] => []
  | prev, c :: rest => xorBlock prev (D key c) :: cbcDecAux D key c rest

/-- Modelled from the spec: `pymazda.crypto_utils.encryptAES128CBCBufferToBase64String`
is part of the repository but not under `src/`.  Per spec section 4.1 it is
AES-128-CBC with a fixed IV over the PKCS#7-padded buffer, base64-encoded.
The AES block transformation itself is abstracted as the parameter `E`. -/
def encryptAES128CBCBufferToBase64String (E : String → List Nat → List Nat)
    (buf : List Nat) (key iv : String) : String :=
  let padded := pkcs7Pad buf
  base64Encode (cbcEncAux E key (strBytes iv) (chunks16 padded.length padded)).flatten

/-- Modelled from the spec: `pymazda.crypto_utils.decryptAES128CBCBufferToString`
is part of the repository but not under `src/`.  Per spec section 4.1 it is the
inverse of the above, over an already base64-decoded buffer (the caller in
connection.py decodes first), and must reject truncated input or invalid
padding as a structural failure (`none`).  The decrypted plaintext is returned
as its UTF-8 byte list; the AES block inverse is the parameter `D`. -/
def decryptAES128CBCBufferToString (D : String → List Nat → List Nat)
    (buf : List Nat) (key iv : String) : Option (List Nat) :=
  if buf.length % 16 = 0 then
    pkcs7Unpad (cbcDecAux D key (strBytes iv) (chunks16 buf.length buf)).flatten
  else none

/-- Spec section 4.1 `encryptPayload(plaintext, key)`: AES-128-CBC under the
protocol's fixed IV, base64-encoded.  The plaintext is a UTF-8 byte list. -/
def encryptPayload (E : String → List Nat → List Nat) (p : List Nat) (key : String) : String :=
  encryptAES128CBCBufferToBase64String E p key IV

/-- Spec section 4.1 `decryptPayload(base64 ciphertext, key)`: inverse of
`encryptPayload`, rejecting invalid base64 or padding with `none`. -/
def decryptPayload (D : String → List Nat → List Nat) (ct : String) (key : String) :
    Option (List Nat) :=
  match base64Decode ct with
  | none => none
  | some buf => decryptAES128CBCBufferToString D buf key IV

theorem getLast?_append_replicate (l : List Nat) (x n : Nat) (h : 1 ≤ n) :
    (l ++ List.replicate n x).getLast? = some x := by
  have hne : List.replicate n x ≠ [] := by
    cases n
    · omega
    · simp
  rw [List.getLast?_append_of_ne_nil _ hne]
  induction n with
  | zero => omega
  | succ m ih =>
    cases m with
    | zero => rfl
    | succ k =>
      rw [List.replicate_succ, List.replicate_succ, List.getLast?_cons_cons,
        ← List.replicate_succ]
      exact ih (by omega) (by simp)

theorem pkcs7Pad_length (buf : List Nat) :
    (pkcs7Pad buf).length = buf.length + (16 - buf.length % 16) := by
  simp [pkcs7Pad]

theorem pkcs7Pad_length_mod (buf : List Nat) : (pkcs7Pad buf).length % 16 = 0 := by
  rw [pkcs7Pad_length]
  omega

theorem pkcs7Unpad_pad (buf : List Nat) : pkcs7Unpad (pkcs7Pad buf) = some buf := by
  have hpos : 1 ≤ 16 - buf.length % 16 := by omega
  have hlast := getLast?_append_replicate buf (16 - buf.length % 16) (16 - buf.length % 16) hpos
  have hpad : pkcs7Pad buf =
      buf ++ List.replicate (16 - buf.length % 16) (16 - buf.length % 16) := rfl
  have hlen : (buf ++ List.replicate (16 - buf.length % 16) (16 - buf.length % 16)).length =
      buf.length + (16 - buf.length % 16) := by simp
  rw [pkcs7Unpad, hpad, hlast]
  simp only [hlen]
  rw [if_neg (by simp; omega)]
  have hsub : buf.length + (16 - buf.length % 16) - (16 - buf.length % 16) = buf.length := by
    omega
  rw [hsub, List.drop_left, List.take_left]
  rw [if_pos (by simp)]

theorem pkcs7Pad_mem_lt_256 (buf : List Nat) (hb : ∀ x ∈ buf, x < 256) :
    ∀ x ∈ pkcs7Pad buf, x < 256 := by
  intro x hx
  simp only [pkcs7Pad, List.mem_append, List.mem_replicate] at hx
  rcases hx with hx | ⟨_, rfl⟩
  · exact hb x hx
  · omega

theorem chunks16_props :
    ∀ (fuel : Nat) (l : List Nat), l.length % 16 = 0 → l.length ≤ fuel →
      (chunks16 fuel l).flatten = l ∧ ∀ b ∈ chunks16 fuel l, b.length = 16 := by
  intro fuel
  induction fuel with
  | zero =>
    intro l _ hle
    have : l = [] := List.eq_nil_of_length_eq_zero (by omega)
    subst this
    simp [chunks16]
  | succ f ih =>
    intro l hmod hle
    by_cases hnil : l = []
    · subst hnil; simp [chunks16]
    · have hpos : 0 < l.length := List.length_pos.mpr hnil
      have h16 : 16 ≤ l.length := by omega
      rw [chunks16, if_neg hnil]
      have hdrop : (l.drop 16).length = l.length - 16 := by simp
      have ihd := ih (l.drop 16) (by omega) (by omega)
      constructor
      · simp only [List.flatten_cons, ihd.1, List.take_append_drop]
      · intro b hbm
        simp only [List.mem_cons] at hbm
        rcases hbm with rfl | hbm
        · simp only [List.length_take]; omega
        · exact ihd.2 b hbm

theorem chunks16_of_flatten :
    ∀ (blocks : List (List Nat)) (fuel : Nat), (∀ b ∈ blocks, b.length = 16) →
      blocks.flatten.length ≤ fuel → chunks16 fuel blocks.flatten = blocks := by
  intro blocks
  induction blocks with
  | nil => intro fuel _ _; cases fuel <;> simp [chunks16]
  | cons b rest ih =>
    intro fuel hlens hle
    have hb : b.length = 16 := hlens b (by simp)
    have hflat : (b :: rest).flatten = b ++ rest.flatten := rfl
    rw [hflat] at hle ⊢
    have hlen : (b ++ rest.flatten).length = 16 + rest.flatten.length := by
      simp [hb]
    cases fuel with
    | zero => omega
    | succ f =>
      rw [chunks16, if_neg (by intro hc; rw [hc] at hlen; simp at hlen; omega)]
      rw [List.take_left' hb, ← hb, List.drop_left]
      rw [ih f (fun x hx => hlens x (by simp [hx])) (by omega)]

theorem xorBlock_length (a b : List Nat) : (xorBlock a b).length = min a.length b.length := by
  simp [xorBlock]

theorem xorBlock_lt_256 :
    ∀ (a b : List Nat), (∀ x ∈ a, x < 256) → (∀ x ∈ b, x < 256) →
      ∀ x ∈ xorBlock a b, x < 256 := by
  intro a
  induction a with
  | nil => intro b _ _ x hx; simp [xorBlock] at hx
  | cons h t ih =>
    intro b ha hb x hx
    cases b with
    | nil => simp [xorBlock] at hx
    | cons bh bt =>
      simp only [xorBlock, List.zipWith_cons_cons, List.mem_cons] at hx
      rcases hx with rfl | hx
      · exact xor_lt_256 (ha h (by simp)) (hb bh (by simp))
      · exact ih bt (fun y hy => ha y (by simp [hy])) (fun y hy => hb y (by simp [hy])) x hx

theorem xorBlock_cancel :
    ∀ (a b : List Nat), a.length = b.length → xorBlock a (xorBlock a b) = b := by
  intro a
  induction a with
  | nil =>
    intro b hl
    have : b = [] := List.eq_nil_of_length_eq_zero (by simp at hl; omega)
    subst this; rfl
  | cons h t ih =>
    intro b hl
    cases b with
    | nil => simp at hl
    | cons bh bt =>
      simp only [xorBlock, List.zipWith_cons_cons]
      rw [Nat.xor_cancel_left]
      have := ih bt (by simp at hl; omega)
      simp only [xorBlock] at this
      rw [this]

theorem cbcEncAux_props (E : String → List Nat → List Nat) (key : String)
    (hElen : ∀ b, b.length = 16 → (∀ x ∈ b, x < 256) → (E key b).length = 16)
    (hE256 : ∀ b, b.length = 16 → (∀ x ∈ b, x < 256) → ∀ x ∈ E key b, x < 256) :
    ∀ (blocks : List (List Nat)) (prev : List Nat),
      (∀ b ∈ blocks, b.length = 16 ∧ ∀ x ∈ b, x < 256) →
      prev.length = 16 → (∀ x ∈ prev, x < 256) →
      ∀ c ∈ cbcEncAux E key prev blocks, c.length = 16 ∧ ∀ x ∈ c, x < 256 := by
  intro blocks
  induction blocks with
  | nil => intro prev _ _ _ c hc; simp [cbcEncAux] at hc
  | cons b rest ih =>
    intro prev hbl hpl hp256 c hc
    obtain ⟨hb16, hb256⟩ := hbl b (by simp)
    have hxlen : (xorBlock prev b).length = 16 := by rw [xorBlock_length, hpl, hb16]; rfl
    have hx256 := xorBlock_lt_256 prev b hp256 hb256
    have hclen := hElen _ hxlen hx256
    have hc256 := hE256 _ hxlen hx256
    simp only [cbcEncAux, List.mem_cons] at hc
    rcases hc with rfl | hc
    · exact ⟨hclen, hc256⟩
    · exact ih (E key (xorBlock prev b)) (fun x hx => hbl x (by simp [hx])) hclen hc256 c hc

theorem cbcDec_cbcEnc (E D : String → List Nat → List Nat) (key : String)
    (hinv : ∀ b, b.length = 16 → (∀ x ∈ b, x < 256) → D key (E key b) = b)
    (hElen : ∀ b, b.length = 16 → (∀ x ∈ b, x < 256) → (E key b).length = 16)
    (hE256 : ∀ b, b.length = 16 → (∀ x ∈ b, x < 256) → ∀ x ∈ E key b, x < 256) :
    ∀ (blocks : List (List Nat)) (prev : List Nat),
      (∀ b ∈ blocks, b.length = 16 ∧ ∀ x ∈ b, x < 256) →
      prev.length = 16 → (∀ x ∈ prev, x < 256) →
      cbcDecAux D key prev (cbcEncAux E key prev blocks) = blocks := by
  intro blocks
  induction blocks with
  | nil => intro prev _ _ _; rfl
  | cons b rest ih =>
    intro prev hbl hpl hp256
    obtain ⟨hb16, hb256⟩ := hbl b (by simp)
    have hxlen : (xorBlock prev b).length = 16 := by rw [xorBlock_length, hpl, hb16]; rfl
    have hx256 := xorBlock_lt_256 prev b hp256 hb256
    show xorBlock prev (D key (E key (xorBlock prev b))) ::
        cbcDecAux D key (E key (xorBlock prev b))
          (cbcEncAux E key (E key (xorBlock prev b)) rest) = b :: rest
    rw [hinv _ hxlen hx256, xorBlock_cancel prev b (by omega)]
    rw [ih (E key (xorBlock prev b)) (fun x hx => hbl x (by simp [hx]))
      (hElen _ hxlen hx256) (hE256 _ hxlen hx256)]

/-! ### Errors

The exception types of `pymazda.exceptions` plus the Python built-in
exceptions the embedded code can raise (`TypeError` from `str + int` on
line 123, `KeyError` from dictionary indexing, `ValueError`/`binascii.Error`
from JSON and base64 decoding), plus a distinguished fuel-exhaustion marker
for the interpreter. -/

inductive PyError where
  | mazda (msg : String)
  | apiEncryption (msg : String)
  | tokenExpired (msg : String)
  | authentication (msg : String)
  | accountLocked (msg : String)
  | typeError
  | keyError (key : String)
  | valueError
  | binasciiError
  | outOfFuel
  deriving DecidableEq

deriving instance DecidableEq for Except

/-! ### Session state (`Connection.__init__`, lines 30-45) -/

/-- Mutable fields of the `Connection` instance.  The constructor arguments
`email`/`password` and the HTTP session object only flow into outgoing
requests, which the oracle abstracts, so they are not part of the state. -/
structure ConnState where
  enc_key : Option String
  sign_key : Option String
  access_token : Option String
  access_token_expiration_ts : Option Int
  deriving DecidableEq

/-- State after `__init__`: all four fields `None` (lines 34-38). -/
def initConn : ConnState := ⟨none, none, none, none⟩

/-! ### Key derivation and signing (lines 47-109) -/

/-- Embedding of `__get_decryption_key_from_app_code` (lines 53-56); `md5Hex`
is Python `hashlib.md5(x.encode()).hexdigest()`, an external library function
passed as a parameter. -/
def getDecryptionKeyFromAppCode (md5Hex : String → String) : String :=
  let val1 := pyUpper (md5Hex (APP_CODE ++ APP_PACKAGE_ID))
  let val2 := pyLower (md5Hex (val1 ++ SIGNATURE_MD5))
  pySlice 4 20 val2

/-- Embedding of `__get_temporary_sign_key_from_app_code` (lines 58-61). -/
def getTemporarySignKeyFromAppCode (md5Hex : String → String) (appCode : String) : String :=
  let val1 := pyUpper (md5Hex (appCode ++ APP_PACKAGE_ID))
  let val2 := pyLower (md5Hex (val1 ++ SIGNATURE_MD5))
  pySlice 20 32 val2 ++ pySlice 0 10 val2 ++ pySlice 4 6 val2

/-- Embedding of `__get_payload_sign` (lines 81-82). -/
def getPayloadSign (encryptedPayloadAndTimestamp signKey : String) : String :=
  pyUpper (sha256Hex (encryptedPayloadAndTimestamp ++ signKey))

/-- Embedding of `__get_sign_from_timestamp` (lines 63-71).  A `None`
timestamp is modelled as the empty string. -/
def getSignFromTimestamp (md5Hex : String → String) (timestamp : String) : String :=
  if timestamp = "" then ""
  else
    let timestamp_extended := pyUpper (timestamp ++ pyDrop 6 timestamp ++ pyDrop 3 timestamp)
    let temporary_sign_key := getTemporarySignKeyFromAppCode md5Hex APP_CODE
    pyUpper (getPayloadSign timestamp_extended temporary_sign_key)

/-- Signature of `crypto_utils.encryptAES128CBCBufferToBase64String`:
buffer, key, IV to base64 text. -/
abbrev AesEnc := List Nat → String → String → String

/-- Signature of `crypto_utils.decryptAES128CBCBufferToString`: buffer, key,
IV to plaintext bytes, `none` on invalid padding. -/
abbrev AesDec := List Nat → String → String → Option (List Nat)

/-- Embedding of `__encrypt_payload_using_key` (lines 84-90).  A `None`
payload is modelled as the empty string; the AES primitive (from the absent
`crypto_utils` module) is the parameter `aesEnc`. -/
def encryptPayloadUsingKey (aesEnc : AesEnc) (c : ConnState) (payload : String) :
    Except PyError String :=
  match c.enc_key with
  | none => .error (.mazda "Missing encryption key")
  | some k =>
    if k = "" then .error (.mazda "Missing encryption key")
    else if payload = "" then .ok ""
    else .ok (aesEnc (strBytes payload) k IV)

/-- Embedding of `__get_sign_from_payload_and_timestamp` (lines 73-79). -/
def getSignFromPayloadAndTimestamp (aesEnc : AesEnc) (c : ConnState)
    (payload timestamp : String) : Except PyError String :=
  if timestamp = "" then .ok ""
  else
    match c.sign_key with
    | none => .error (.mazda "Missing sign key")
    | some sk =>
      if sk = "" then .error (.mazda "Missing sign key")
      else
        match encryptPayloadUsingKey aesEnc c payload with
        | .error e => .error e
        | .ok enc =>
          .ok (getPayloadSign
            (enc ++ timestamp ++ pyDrop 6 timestamp ++ pyDrop 3 timestamp) sk)

/-- Decrypted JSON payloads are modelled as string-to-string association
lists; `json.loads` of arbitrary documents is the parameter `jsonLoads`. -/
abbrev Payload := List (String × String)

/-- Embedding of `__decrypt_payload_using_key` (lines 98-104). -/
def decryptPayloadUsingKey (aesDec : AesDec) (jsonLoads : List Nat → Option Payload)
    (c : ConnState) (payload : String) : Except PyError Payload :=
  match c.enc_key with
  | none => .error (.mazda "Missing encryption key")
  | some k =>
    if k = "" then .error (.mazda "Missing encryption key")
    else
      match base64Decode payload with
      | none => .error .binasciiError
      | some buf =>
        match aesDec buf k IV with
        | none => .error .valueError
        | some decrypted =>
          match jsonLoads decrypted with
          | none => .error .valueError
          | some v => .ok v

/-- Embedding of `__decrypt_payload_using_app_code` (lines 92-96). -/
def decryptPayloadUsingAppCode (aesDec : AesDec) (jsonLoads : List Nat → Option Payload)
    (md5Hex : String → String) (payload : String) : Except PyError Payload :=
  match base64Decode payload with
  | none => .error .binasciiError
  | some buf =>
    match aesDec buf (getDecryptionKeyFromAppCode md5Hex) IV with
    | none => .error .valueError
    | some decrypted =>
      match jsonLoads decrypted with
      | none => .error .valueError
      | some v => .ok v

/-! ### Request pipeline interpreter (lines 111-259)

The HTTP transport is an oracle: `Env.send` gives the response envelope of
the n-th `__send_api_request` transmission (with its payload already
decrypted and parsed into an association list), `Env.usherKey` and
`Env.loginResp` give the two usher-host responses of the n-th `login` call,
`Env.timestamp` the wall clock in milliseconds at each send, and `Env.now`
the wall clock in seconds for the token-expiry check.  Ghost `Event`s record
pipeline entries, transmissions, key retrievals and logins. -/

/-- Wire envelope of a main-API response (spec section 6), with `payload`
already decrypted and parsed. -/
structure SendResponse where
  state : String
  payload : List (String × String)
  errorCode : Int
  deriving DecidableEq

/-- Login-endpoint response: `status` plus the token data
(`accessToken`, `accessTokenExpirationTs`), `none` when absent. -/
structure LoginResponse where
  status : String
  data : Option (String × Int)
  deriving DecidableEq

/-- Request descriptor (spec section 3). -/
structure Req where
  method : String
  uri : String
  query : List (String × String)
  body : List (String × String)
  needs_keys : Bool
  needs_auth : Bool
  deriving DecidableEq

/-- Ghost trace events. -/
inductive Event where
  | invoked (num_retries : Nat)
  | apiSent (uri : String)
  | retrieveKeysCalled
  | loginCalled
  deriving DecidableEq

/-- Interpreter state: connection fields plus oracle cursors and the trace. -/
structure World where
  conn : ConnState
  sendIdx : Nat
  loginIdx : Nat
  trace : List Event
  deriving DecidableEq

/-- Oracle for the network and the clock. -/
structure Env where
  send : Nat → SendResponse
  timestamp : Nat → String
  usherKey : Nat → Option (String × String)
  loginResp : Nat → LoginResponse
  now : Int
  aesEnc : AesEnc
  md5Hex : String → String

/-- Substring test, Python `needle in hay`. -/
def containsSeq : List Char → List Char → Bool
  | [], needle => needle.isEmpty
  | h :: t, needle => needle.isPrefixOf (h :: t) || containsSeq t needle

/-- Modelled from Python stdlib `urllib.parse.urlencode`: key=value pairs
joined with ampersands; percent-escaping is not modelled (no claim depends
on the wire text). -/
def urlencode (q : List (String × String)) : String :=
  String.intercalate "&" (q.map (fun kv => kv.1 ++ "=" ++ kv.2))

/-- Modelled from Python stdlib `json.dumps` on a flat string map (no claim
depends on the wire text). -/
def jsonDumps (b : List (String × String)) : String :=
  "\x7b" ++ String.intercalate ", " (b.map (fun kv => "\"" ++ kv.1 ++ "\": \"" ++ kv.2 ++ "\"")) ++ "\x7d"

/-- Embedding of `Connection.login` (lines 208-259).  The usher-host public
key fetch yields `keyError` when the oracle reports a malformed response
(missing `data`/`publicKey`); the RSA password encryption (lines 106-109,
228) only affects the outgoing request body, which the oracle absorbs.
Token state is written only on an "OK" status (lines 258-259). -/
def loginEntry (w : World) : World :=
  { w with trace := w.trace ++ [Event.loginCalled], loginIdx := w.loginIdx + 1 }

def loginRun (env : Env) (w : World) : World × Except PyError Unit :=
  let w1 : World := loginEntry w
  match env.usherKey w.loginIdx with
  | none => (w1, .error (.keyError "publicKey"))
  | some _ =>
    let resp := env.loginResp w.loginIdx
    if resp.status = "INVALID_CREDENTIAL" then
      (w1, .error (.authentication "Invalid email or password"))
    else if resp.status = "USER_LOCKED" then
      (w1, .error (.accountLocked "Account has been locked"))
    else if resp.status ≠ "OK" then
      (w1, .error (.mazda "Login failed"))
    else
      match resp.data with
      | none => (w1, .error (.keyError "accessToken"))
      | some td =>
        let c2 : ConnState :=
          { w1.conn with access_token := some td.1, access_token_expiration_ts := some td.2 }
        ({ w1 with conn := c2 }, .ok ())

/-- Condition of `__ensure_token_is_valid` (line 197). -/
def tokenNeedsLogin (now : Int) (c : ConnState) : Bool :=
  c.access_token.isNone || c.access_token_expiration_ts.isNone ||
    (match c.access_token_expiration_ts with
     | some e => decide (e ≤ now)
     | none => true)

/-- Embedding of `__ensure_token_is_valid` (lines 196-198). -/
def ensureTokenRun (env : Env) (w : World) : World × Except PyError Unit :=
  if tokenNeedsLogin env.now w.conn then loginRun env w else (w, .ok ())

/-- Classification of the response envelope (lines 180-190). -/
def classifyResp (resp : SendResponse) : Except PyError (List (String × String)) :=
  if resp.state = "S" then .ok resp.payload
  else if resp.errorCode = 600001 then
    .error (.apiEncryption "Server rejected encrypted request")
  else if resp.errorCode = 600002 then .error (.tokenExpired "Token expired")
  else .error (.mazda "Request failed for an unknown reason")

/-- Embedding of `__send_api_request` (lines 137-190).  Of the header dict
only the computations that can raise (query/body encryption, the sign
header) are retained; the response classification follows lines 180-190. -/
def sendApiRequest (env : Env) (w : World) (req : Req) :
    World × Except PyError (List (String × String)) :=
  let timestamp := env.timestamp w.sendIdx
  let original_query_str := if req.query ≠ [] then urlencode req.query else ""
  let encQuery : Except PyError Unit :=
    if req.query ≠ [] then
      match encryptPayloadUsingKey env.aesEnc w.conn original_query_str with
      | .error e => .error e
      | .ok _ => .ok ()
    else .ok ()
  match encQuery with
  | .error e => (w, .error e)
  | .ok _ =>
    let original_body_str := if req.body ≠ [] then jsonDumps req.body else ""
    let encBody : Except PyError Unit :=
      if req.body ≠ [] then
        match encryptPayloadUsingKey env.aesEnc w.conn original_body_str with
        | .error e => .error e
        | .ok _ => .ok ()
      else .ok ()
    match encBody with
    | .error e => (w, .error e)
    | .ok _ =>
      let signRes : Except PyError Unit :=
        if containsSeq req.uri.data "checkVersion".data then
          let _ := getSignFromTimestamp env.md5Hex timestamp
          .ok ()
        else if req.method = "GET" then
          match getSignFromPayloadAndTimestamp env.aesEnc w.conn original_query_str
              timestamp with
          | .error e => .error e
          | .ok _ => .ok ()
        else if req.method = "POST" then
          match getSignFromPayloadAndTimestamp env.aesEnc w.conn original_body_str
              timestamp with
          | .error e => .error e
          | .ok _ => .ok ()
        else .ok ()
      match signRes with
      | .error e => (w, .error e)
      | .ok _ =>
        ({ w with sendIdx := w.sendIdx + 1, trace := w.trace ++ [Event.apiSent req.uri] },
          classifyResp (env.send w.sendIdx))

/-- The key-retrieval request of `__retrieve_keys` (line 202). -/
def checkVersionReq : Req :=
  ⟨"POST", "service/checkVersion", [], [], false, false⟩

/-- Call tags for the mutually recursive part of the pipeline. -/
inductive Call where
  | apiRetry (req : Req) (num_retries : Nat)
  | ensureKeys
  | retrieveKeys
  deriving DecidableEq

/-- Fuel-indexed interpreter for the mutually recursive methods
`__api_request_retry` (lines 114-135), `__ensure_keys_present` (192-194) and
`__retrieve_keys` (200-206).  Note on line 123: Python evaluates
`" attempt #" + (num_retries + 1)` whenever `num_retries > 0`, and string
concatenation with an `int` raises `TypeError`, so the embedding raises
`typeError` at that point.  Fuel exhaustion yields the distinguished
`outOfFuel` error; theorems supply enough fuel.  The `ensureKeys`/
`retrieveKeys` arms return `.ok []` as their unit value.  Note on lines
205-206: `enc_key` is assigned before the `signKey` lookup, so a response
payload carrying `encKey` but no `signKey` stores the encryption key and
then raises KeyError with the signing key left as it was. -/
def step : Nat → Env → World → Call → World × Except PyError (List (String × String))
  | 0, _, w, _ => (w, .error .outOfFuel)
  | fuel + 1, env, w, Call.ensureKeys =>
    if w.conn.enc_key = none ∨ w.conn.sign_key = none then
      step fuel env w Call.retrieveKeys
    else (w, .ok [])
  | fuel + 1, env, w, Call.retrieveKeys =>
    let w1 : World := { w with trace := w.trace ++ [Event.retrieveKeysCalled] }
    match step fuel env w1 (Call.apiRetry checkVersionReq 0) with
    | (w2, .error e) => (w2, .error e)
    | (w2, .ok response) =>
      match response.lookup "encKey" with
      | none => (w2, .error (.keyError "encKey"))
      | some ek =>
        match response.lookup "signKey" with
        | none =>
          ({ w2 with conn := { w2.conn with enc_key := some ek } },
            .error (.keyError "signKey"))
        | some sk =>
          ({ w2 with conn := { w2.conn with enc_key := some ek, sign_key := some sk } },
            .ok [])
  | fuel + 1, env, w, Call.apiRetry req n =>
    let w0 : World := { w with trace := w.trace ++ [Event.invoked n] }
    if n > MAX_RETRIES then
      (w0, .error (.mazda "Request exceeded max number of retries"))
    else
      match (if req.needs_keys then step fuel env w0 Call.ensureKeys else (w0, .ok [])) with
      | (w1, .error e) => (w1, .error e)
      | (w1, .ok _) =>
        match (if req.needs_auth then ensureTokenRun env w1 else (w1, .ok ())) with
        | (w2, .error e) => (w2, .error e)
        | (w2, .ok _) =>
          if n > 0 then (w2, .error .typeError)
          else
            match sendApiRequest env w2 req with
            | (w3, .ok result) => (w3, .ok result)
            | (w3, .error (.apiEncryption _)) =>
              match step fuel env w3 Call.retrieveKeys with
              | (w4, .error e) => (w4, .error e)
              | (w4, .ok _) => step fuel env w4 (Call.apiRetry req (n + 1))
            | (w3, .error (.tokenExpired _)) =>
              match loginRun env w3 with
              | (w4, .error e) => (w4, .error e)
              | (w4, .ok _) => step fuel env w4 (Call.apiRetry req (n + 1))
            | (w3, .error e) => (w3, .error e)

/-- Embedding of the public `api_request` (lines 111-112). -/
def apiRequest (fuel : Nat) (env : Env) (w : World) (req : Req) :
    World × Except PyError (List (String × String)) :=
  step fuel env w (Call.apiRetry req 0)

/-- The two ensure steps at the head of `__api_request_retry` (lines
118-121), composed the same way `step` composes them. -/
def ensureSteps (fuel : Nat) (env : Env) (w : World) (req : Req) :
    World × Except PyError Unit :=
  match (if req.needs_keys then step fuel env w Call.ensureKeys else (w, .ok [])) with
  | (w1, .error e) => (w1, .error e)
  | (w1, .ok _) =>
    if req.needs_auth then ensureTokenRun env w1 else (w1, .ok ())

/-! ### Claim theorems -/

theorem pyUpper_length (s : String) : (pyUpper s).length = s.length := by
  show (s.data.map Char.toUpper).length = s.length
  rw [List.length_map]
  rfl

theorem encryptPayloadUsingKey_ok (aesEnc : AesEnc) (c : ConnState) (p k : String)
    (hk : c.enc_key = some k) (hk0 : k ≠ "") :
    encryptPayloadUsingKey aesEnc c p =
      .ok (if p = "" then "" else aesEnc (strBytes p) k IV) := by
  simp only [encryptPayloadUsingKey, hk]
  rw [if_neg hk0]
  by_cases hp : p = ""
  · rw [if_pos hp, if_pos hp]
  · rw [if_neg hp, if_neg hp]

/-- C4: for every payload string and every non-empty millisecond-epoch
timestamp string t, when the session signing key is present (together with the
encryption key, which the sign path uses and which the key invariant, claim
C7, ties to it), the ordinary (non-bootstrap) sign header equals the uppercase
SHA-256 hex digest, of fixed length 64 with characters in 0-9A-F, of
encrypt(payload) + t + t[6:] + t[3:] concatenated with the signing key; the
output is the value of a pure function of those inputs, hence deterministic. -/
theorem sign_header_formula (aesEnc : AesEnc) (c : ConnState) (p t sk ek : String)
    (hsk : c.sign_key = some sk) (hsk0 : sk ≠ "") (hek : c.enc_key = some ek)
    (hek0 : ek ≠ "") (ht : t ≠ "") :
    ∃ e, encryptPayloadUsingKey aesEnc c p = .ok e ∧
      getSignFromPayloadAndTimestamp aesEnc c p t =
        .ok (pyUpper (sha256Hex (e ++ t ++ pyDrop 6 t ++ pyDrop 3 t ++ sk))) ∧
      (pyUpper (sha256Hex (e ++ t ++ pyDrop 6 t ++ pyDrop 3 t ++ sk))).length = 64 ∧
      ∀ ch ∈ (pyUpper (sha256Hex (e ++ t ++ pyDrop 6 t ++ pyDrop 3 t ++ sk))).data,
        ch ∈ "0123456789ABCDEF".data := by
  refine ⟨if p = "" then "" else aesEnc (strBytes p) ek IV,
    encryptPayloadUsingKey_ok aesEnc c p ek hek hek0, ?_, ?_, ?_⟩
  · simp only [getSignFromPayloadAndTimestamp, hsk]
    rw [if_neg ht, if_neg hsk0, encryptPayloadUsingKey_ok aesEnc c p ek hek hek0]
    rfl
  · rw [pyUpper_length, sha256Hex_length]
  · exact sha256Hex_upper_hexdigits _

/-- Closed instance of the sign-header theorem, hypotheses discharged at a
concrete state, payload and timestamp. -/
theorem sign_header_formula_witness :
    ∃ e, encryptPayloadUsingKey (fun _ _ _ => "CT") ⟨some "ek", some "sk", none, none⟩
        "payload" = .ok e ∧
      getSignFromPayloadAndTimestamp (fun _ _ _ => "CT")
          ⟨some "ek", some "sk", none, none⟩ "payload" "1700000000000" =
        .ok (pyUpper (sha256Hex (e ++ "1700000000000" ++ pyDrop 6 "1700000000000" ++
          pyDrop 3 "1700000000000" ++ "sk"))) ∧
      (pyUpper (sha256Hex (e ++ "1700000000000" ++ pyDrop 6 "1700000000000" ++
        pyDrop 3 "1700000000000" ++ "sk"))).length = 64 ∧
      ∀ ch ∈ (pyUpper (sha256Hex (e ++ "1700000000000" ++ pyDrop 6 "1700000000000" ++
        pyDrop 3 "1700000000000" ++ "sk"))).data, ch ∈ "0123456789ABCDEF".data :=
  sign_header_formula (fun _ _ _ => "CT") ⟨some "ek", some "sk", none, none⟩
    "payload" "1700000000000" "sk" "ek" rfl (by decide) rfl (by decide) (by decide)

theorem flatten_len_16 :
    ∀ (blocks : List (List Nat)), (∀ b ∈ blocks, b.length = 16) →
      blocks.flatten.length = 16 * blocks.length := by
  intro blocks
  induction blocks with
  | nil => intro _; rfl
  | cons b rest ih =>
    intro h
    have hb : b.length = 16 := h b (by simp)
    simp only [List.flatten_cons, List.length_append, hb, List.length_cons,
      ih (fun x hx => h x (by simp [hx]))]
    ring

/-- C5: for every non-empty byte-string plaintext p and every key k, CBC
decryption inverts CBC encryption through PKCS#7 padding and base64 under the
protocol fixed IV, given that the underlying block transformation D inverts E
on valid 16-byte blocks (E, D stand for the AES-128 core of the absent
crypto_utils module): decryptPayload(encryptPayload(p, k), k) = p. -/
theorem decryptPayload_encryptPayload (E D : String → List Nat → List Nat) (key : String)
    (p : List Nat)
    (hinv : ∀ b, b.length = 16 → (∀ x ∈ b, x < 256) → D key (E key b) = b)
    (hElen : ∀ b, b.length = 16 → (∀ x ∈ b, x < 256) → (E key b).length = 16)
    (hE256 : ∀ b, b.length = 16 → (∀ x ∈ b, x < 256) → ∀ x ∈ E key b, x < 256)
    (_hp : p ≠ []) (hpb : ∀ x ∈ p, x < 256) :
    decryptPayload D (encryptPayload E p key) key = some p := by
  have hpadmod := pkcs7Pad_length_mod p
  have hpad256 := pkcs7Pad_mem_lt_256 p hpb
  obtain ⟨hflat, hlens⟩ := chunks16_props (pkcs7Pad p).length (pkcs7Pad p) hpadmod (le_refl _)
  have hblocks : ∀ b ∈ chunks16 (pkcs7Pad p).length (pkcs7Pad p),
      b.length = 16 ∧ ∀ x ∈ b, x < 256 := by
    intro b hb
    refine ⟨hlens b hb, fun x hx => hpad256 x ?_⟩
    rw [← hflat]
    exact List.mem_flatten.mpr ⟨b, hb, hx⟩
  have hIVlen : (strBytes IV).length = 16 := by decide
  have hIV256 := strBytes_lt_256 IV
  have hcts := cbcEncAux_props E key hElen hE256
    (chunks16 (pkcs7Pad p).length (pkcs7Pad p)) (strBytes IV) hblocks hIVlen hIV256
  have hctlens : ∀ b ∈ cbcEncAux E key (strBytes IV)
      (chunks16 (pkcs7Pad p).length (pkcs7Pad p)), b.length = 16 :=
    fun b hb => (hcts b hb).1
  have hct256 : ∀ x ∈ (cbcEncAux E key (strBytes IV)
      (chunks16 (pkcs7Pad p).length (pkcs7Pad p))).flatten, x < 256 := by
    intro x hx
    obtain ⟨b, hb, hxb⟩ := List.mem_flatten.mp hx
    exact (hcts b hb).2 x hxb
  have hctlen := flatten_len_16 _ hctlens
  have hb64 := base64_roundtrip _ hct256
  simp only [encryptPayload, encryptAES128CBCBufferToBase64String,
    decryptPayload]
  rw [hb64]
  simp only [decryptAES128CBCBufferToString]
  rw [if_pos (by rw [hctlen]; omega)]
  rw [chunks16_of_flatten _ _ hctlens (by rw [hctlen])]
  rw [cbcDec_cbcEnc E D key hinv hElen hE256 _ _ hblocks hIVlen hIV256]
  rw [hflat]
  exact pkcs7Unpad_pad p

/-- Closed instance of the round-trip theorem: the identity block
transformation is its own inverse, plaintext "hi" as bytes, key "k". -/
theorem decryptPayload_encryptPayload_witness :
    decryptPayload (fun _ b => b) (encryptPayload (fun _ b => b) [104, 105] "k") "k" =
      some [104, 105] :=
  decryptPayload_encryptPayload (fun _ b => b) (fun _ b => b) "k" [104, 105]
    (fun _ _ _ => rfl) (fun _ h _ => h) (fun _ _ hb => hb) (by decide) (by decide)

/-- Predicate on wrapper results: is this the "missing key" MazdaException
(either of the two guard messages on lines 86, 77, 100)? -/
def isMissingKeyError {α : Type} : Except PyError α → Bool
  | .error (.mazda m) => m == "Missing encryption key" || m == "Missing sign key"
  | _ => false

/-- Encryption key absent or empty (guard condition of lines 85, 99). -/
def encKeyMissing (c : ConnState) : Bool :=
  match c.enc_key with
  | none => true
  | some k => k == ""

/-- Signing key absent or empty (guard condition of line 76). -/
def signKeyMissing (c : ConnState) : Bool :=
  match c.sign_key with
  | none => true
  | some k => k == ""

/-- C8 counterexample: with the signing key absent but an empty timestamp,
`__get_sign_from_payload_and_timestamp` returns "" without raising, because
the timestamp guard (line 74) precedes the key guard (line 76); so "raises a
missing-key error if and only if the needed key is absent" fails. -/
theorem missing_key_guard_counterexample :
    signKeyMissing ⟨none, none, none, none⟩ = true ∧
    getSignFromPayloadAndTimestamp (fun _ _ _ => "CT") ⟨none, none, none, none⟩ "p" "" =
      .ok "" ∧
    isMissingKeyError (getSignFromPayloadAndTimestamp (fun _ _ _ => "CT")
      ⟨none, none, none, none⟩ "p" "") = false := by decide

/-- C8 (amended): encrypt and decrypt raise the missing-key error exactly when
the encryption key is absent or empty; the sign wrapper, whose empty-timestamp
guard comes first, raises a missing-key error exactly when the timestamp is
non-empty and the signing key or the encryption key (used via encrypt) is
absent or empty; with the needed keys present none of them raises it. -/
theorem missing_key_guards (aesEnc : AesEnc) (aesDec : AesDec)
    (jsonLoads : List Nat → Option Payload) (c : ConnState) (p ct t : String) :
    isMissingKeyError (encryptPayloadUsingKey aesEnc c p) = encKeyMissing c ∧
    isMissingKeyError (decryptPayloadUsingKey aesDec jsonLoads c ct) = encKeyMissing c ∧
    isMissingKeyError (getSignFromPayloadAndTimestamp aesEnc c p t) =
      (decide (t ≠ "") && (signKeyMissing c || encKeyMissing c)) := by
  refine ⟨?_, ?_, ?_⟩
  · cases henc : c.enc_key with
    | none => simp [encryptPayloadUsingKey, encKeyMissing, henc, isMissingKeyError]
    | some k =>
      by_cases hk : k = ""
      · simp [encryptPayloadUsingKey, encKeyMissing, henc, hk, isMissingKeyError]
      · rw [encryptPayloadUsingKey_ok aesEnc c p k henc hk]
        simp [encKeyMissing, henc, hk, isMissingKeyError]
  · cases henc : c.enc_key with
    | none => simp [decryptPayloadUsingKey, encKeyMissing, henc, isMissingKeyError]
    | some k =>
      by_cases hk : k = ""
      · simp [decryptPayloadUsingKey, encKeyMissing, henc, hk, isMissingKeyError]
      · simp only [decryptPayloadUsingKey, encKeyMissing, henc, if_neg hk]
        cases hb : base64Decode ct with
        | none => simp [isMissingKeyError, hk]
        | some buf =>
          cases hd : aesDec buf k IV with
          | none => simp [isMissingKeyError, hk, hd]
          | some d =>
            cases hj : jsonLoads d with
            | none => simp [isMissingKeyError, hk, hd, hj]
            | some v => simp [isMissingKeyError, hk, hd, hj]
  · by_cases ht : t = ""
    · simp [getSignFromPayloadAndTimestamp, ht, isMissingKeyError]
    · cases hsk : c.sign_key with
      | none =>
        simp [getSignFromPayloadAndTimestamp, ht, hsk, isMissingKeyError, signKeyMissing]
      | some sk =>
        by_cases hk : sk = ""
        · simp [getSignFromPayloadAndTimestamp, ht, hsk, hk, isMissingKeyError,
            signKeyMissing]
        · simp only [getSignFromPayloadAndTimestamp, ht, hsk, if_neg ht, if_neg hk]
          cases henc : c.enc_key with
          | none =>
            simp [encryptPayloadUsingKey, henc, isMissingKeyError, signKeyMissing,
              encKeyMissing, hsk, hk, ht]
          | some ek =>
            by_cases hek : ek = ""
            · simp [encryptPayloadUsingKey, henc, hek, isMissingKeyError, signKeyMissing,
                encKeyMissing, hsk, hk, ht]
            · rw [encryptPayloadUsingKey_ok aesEnc c p ek henc hek]
              simp [isMissingKeyError, signKeyMissing, encKeyMissing, hsk, hk, henc, hek,
                ht]

/-- C10 counterexample: with the encryption key set to the empty string, the
empty-payload call raises the missing-key error (the key guard on line 85
precedes the empty-payload short-circuit on line 87) instead of returning "". -/
theorem encrypt_empty_payload_counterexample :
    encryptPayloadUsingKey (fun _ _ _ => "CIPHER") ⟨some "", none, none, none⟩ "" =
      .error (.mazda "Missing encryption key") := by decide

/-- C10 (amended): for every non-empty key, encrypting the empty payload
returns the empty string, and the result does not depend on the cipher
function, i.e. the AES cipher is not invoked. -/
theorem encrypt_empty_payload (aesEnc aesEnc2 : AesEnc) (c : ConnState) (k : String)
    (hk : c.enc_key = some k) (hk0 : k ≠ "") :
    encryptPayloadUsingKey aesEnc c "" = .ok "" ∧
    encryptPayloadUsingKey aesEnc c "" = encryptPayloadUsingKey aesEnc2 c "" := by
  rw [encryptPayloadUsingKey_ok aesEnc c "" k hk hk0,
    encryptPayloadUsingKey_ok aesEnc2 c "" k hk hk0]
  simp

/-- Closed instance of the empty-payload theorem at a concrete key and two
distinct cipher functions. -/
theorem encrypt_empty_payload_witness :
    encryptPayloadUsingKey (fun _ _ _ => "A") ⟨some "k", none, none, none⟩ "" = .ok "" ∧
    encryptPayloadUsingKey (fun _ _ _ => "A") ⟨some "k", none, none, none⟩ "" =
      encryptPayloadUsingKey (fun _ _ _ => "B") ⟨some "k", none, none, none⟩ "" :=
  encrypt_empty_payload (fun _ _ _ => "A") (fun _ _ _ => "B")
    ⟨some "k", none, none, none⟩ "k" rfl (by decide)

/-! ### Test fixtures for the closed witness theorems -/

def respS : SendResponse :=
  { state := "S", payload := [("encKey", "ek2"), ("signKey", "sk2")], errorCode := 0 }

def respE1 : SendResponse := { state := "F", payload := [], errorCode := 600001 }

def respE2 : SendResponse := { state := "F", payload := [], errorCode := 600002 }

def baseEnv : Env :=
  { send := fun _ => respS,
    timestamp := fun _ => "1700000000000",
    usherKey := fun _ => some ("pk", "v1"),
    loginResp := fun _ => { status := "OK", data := some ("tok", 9999) },
    now := 0,
    aesEnc := fun _ _ _ => "CT",
    md5Hex := fun _ => "d41d8cd98f00b204e9800998ecf8427e" }

def keysConn : ConnState :=
  { enc_key := some "k1", sign_key := some "s1",
    access_token := none, access_token_expiration_ts := none }

def keysWorld : World := { conn := keysConn, sendIdx := 0, loginIdx := 0, trace := [] }

/-! ### Login and token claims -/

theorem loginRun_trace (env : Env) (w : World) :
    (loginRun env w).1.trace = w.trace ++ [Event.loginCalled] := by
  simp only [loginRun, loginEntry]
  cases env.usherKey w.loginIdx with
  | none => rfl
  | some pk =>
    split_ifs <;> try rfl
    cases (env.loginResp w.loginIdx).data <;> rfl

/-- C6: a login response with status "INVALID_CREDENTIAL" makes `login` raise
the authentication failure (given the preceding public-key fetch succeeded,
which is what makes a login response exist at all), and any non-"OK" status
leaves the whole connection state, in particular `access_token` and
`access_token_expiration_ts`, unchanged. -/
theorem login_invalid_credential (env : Env) (w : World) (pk : String × String)
    (hu : env.usherKey w.loginIdx = some pk) :
    ((env.loginResp w.loginIdx).status = "INVALID_CREDENTIAL" →
      loginRun env w =
        (loginEntry w, .error (.authentication "Invalid email or password"))) ∧
    ((env.loginResp w.loginIdx).status ≠ "OK" → (loginRun env w).1.conn = w.conn) := by
  constructor
  · intro hic
    simp only [loginRun, hu]
    rw [if_pos hic]
  · intro hnok
    simp only [loginRun, hu]
    by_cases h1 : (env.loginResp w.loginIdx).status = "INVALID_CREDENTIAL"
    · rw [if_pos h1]; rfl
    · rw [if_neg h1]
      by_cases h2 : (env.loginResp w.loginIdx).status = "USER_LOCKED"
      · rw [if_pos h2]; rfl
      · rw [if_neg h2, if_pos hnok]; rfl

/-- Closed instance: a mock INVALID_CREDENTIAL login response raises the
authentication error and leaves the connection state unchanged. -/
theorem login_invalid_credential_witness :
    loginRun { baseEnv with loginResp :=
        fun _ => { status := "INVALID_CREDENTIAL", data := none } } keysWorld =
      (loginEntry keysWorld, .error (.authentication "Invalid email or password")) ∧
    (loginRun { baseEnv with loginResp :=
        fun _ => { status := "INVALID_CREDENTIAL", data := none } } keysWorld).1.conn =
      keysWorld.conn :=
  ⟨(login_invalid_credential _ keysWorld ("pk", "v1") rfl).1 rfl,
   (login_invalid_credential _ keysWorld ("pk", "v1") rfl).2 (by decide)⟩

/-- C9: `ensureTokenValid` performs `login` exactly when the token is absent,
or the expiration is absent, or now >= expiration (line 197 reads
`expiration <= now`); with a present, unexpired token it is a no-op leaving
the state unchanged. -/
theorem ensure_token_valid (env : Env) (w : World) :
    (tokenNeedsLogin env.now w.conn = true ↔
      (w.conn.access_token = none ∨ w.conn.access_token_expiration_ts = none ∨
        ∃ e, w.conn.access_token_expiration_ts = some e ∧ env.now ≥ e)) ∧
    (ensureTokenRun env w).1.trace =
      w.trace ++ (if tokenNeedsLogin env.now w.conn then [Event.loginCalled] else []) ∧
    (tokenNeedsLogin env.now w.conn = false → ensureTokenRun env w = (w, .ok ())) := by
  refine ⟨?_, ?_, ?_⟩
  · cases ha : w.conn.access_token <;> cases hb : w.conn.access_token_expiration_ts <;>
      simp [tokenNeedsLogin, ha, hb, ge_iff_le]
  · by_cases hc : tokenNeedsLogin env.now w.conn
    · rw [ensureTokenRun, if_pos hc, if_pos hc, loginRun_trace]
    · rw [ensureTokenRun, if_neg hc, if_neg hc]
      simp
  · intro hc
    rw [ensureTokenRun, if_neg (by rw [hc]; exact Bool.false_ne_true)]

def tokenConn : ConnState :=
  { enc_key := some "k1", sign_key := some "s1",
    access_token := some "tok", access_token_expiration_ts := some 9999 }

def tokenWorld : World := { conn := tokenConn, sendIdx := 0, loginIdx := 0, trace := [] }

/-- Closed instance: with a present token expiring at 9999 and the clock at 0,
the token check reports no login needed and the ensure step is a no-op. -/
theorem ensure_token_valid_witness :
    ensureTokenRun baseEnv tokenWorld = (tokenWorld, .ok ()) :=
  (ensure_token_valid baseEnv tokenWorld).2.2 (by decide)

/-! ### Pipeline lemmas -/

theorem step_ensureKeys_present (fuel : Nat) (env : Env) (w : World) (e s : String)
    (he : w.conn.enc_key = some e) (hs : w.conn.sign_key = some s) :
    step (fuel + 1) env w Call.ensureKeys = (w, .ok []) := by
  simp only [step]
  rw [if_neg (by simp [he, hs])]

theorem getSignFromPayloadAndTimestamp_ok (aesEnc : AesEnc) (c : ConnState)
    (p t e s : String) (he : c.enc_key = some e) (he0 : e ≠ "")
    (hs : c.sign_key = some s) (hs0 : s ≠ "") :
    ∃ v, getSignFromPayloadAndTimestamp aesEnc c p t = .ok v := by
  by_cases ht : t = ""
  · exact ⟨"", by rw [getSignFromPayloadAndTimestamp, if_pos ht]⟩
  · refine ⟨getPayloadSign ((if p = "" then "" else aesEnc (strBytes p) e IV) ++ t ++
      pyDrop 6 t ++ pyDrop 3 t) s, ?_⟩
    simp only [getSignFromPayloadAndTimestamp, hs]
    rw [if_neg ht, if_neg hs0, encryptPayloadUsingKey_ok aesEnc c p e he he0]

theorem sendApiRequest_keys (env : Env) (w : World) (req : Req) (e s : String)
    (he : w.conn.enc_key = some e) (he0 : e ≠ "") (hs : w.conn.sign_key = some s)
    (hs0 : s ≠ "") :
    sendApiRequest env w req =
      ({ w with sendIdx := w.sendIdx + 1, trace := w.trace ++ [Event.apiSent req.uri] },
        classifyResp (env.send w.sendIdx)) := by
  have hq := encryptPayloadUsingKey_ok env.aesEnc w.conn
    (if req.query ≠ [] then urlencode req.query else "") e he he0
  have hb := encryptPayloadUsingKey_ok env.aesEnc w.conn
    (if req.body ≠ [] then jsonDumps req.body else "") e he he0
  obtain ⟨vq, hvq⟩ := getSignFromPayloadAndTimestamp_ok env.aesEnc w.conn
    (if req.query ≠ [] then urlencode req.query else "") (env.timestamp w.sendIdx)
    e s he he0 hs hs0
  obtain ⟨vb, hvb⟩ := getSignFromPayloadAndTimestamp_ok env.aesEnc w.conn
    (if req.body ≠ [] then jsonDumps req.body else "") (env.timestamp w.sendIdx)
    e s he he0 hs hs0
  simp only [sendApiRequest, hq, hb, hvq, hvb]
  split_ifs <;> rfl

/-- Helper: any attempt with num_retries >= 1 that passes the retry guard
reduces to the ensure phase followed by the line 123 TypeError. -/
theorem apiRetry_pos_typeError (fuel : Nat) (env : Env) (w : World) (req : Req)
    (n : Nat) (h1 : 1 ≤ n) (h2 : n ≤ MAX_RETRIES) :
    step (fuel + 1) env w (Call.apiRetry req n) =
      (match ensureSteps fuel env
          { w with trace := w.trace ++ [Event.invoked n] } req with
       | (w2, .ok _) => (w2, .error .typeError)
       | (w2, .error e) => (w2, .error e)) ∧
    ∀ w2 r, step (fuel + 1) env w (Call.apiRetry req n) ≠ (w2, .ok r) := by
  have hmain : step (fuel + 1) env w (Call.apiRetry req n) =
      (match ensureSteps fuel env
          { w with trace := w.trace ++ [Event.invoked n] } req with
       | (w2, .ok _) => (w2, .error .typeError)
       | (w2, .error e) => (w2, .error e)) := by
    simp only [step, ensureSteps]
    rw [if_neg (by omega)]
    rcases hk : (if req.needs_keys
        then step fuel env { w with trace := w.trace ++ [Event.invoked n] } Call.ensureKeys
        else ({ w with trace := w.trace ++ [Event.invoked n] }, Except.ok []))
      with ⟨w1, r1⟩
    cases r1 with
    | error e => rfl
    | ok u =>
      rcases ha : (if req.needs_auth then ensureTokenRun env w1 else (w1, Except.ok ()))
        with ⟨w2, r2⟩
      cases r2 with
      | error e => simp [ha]
      | ok u2 =>
        have hn : n > 0 := by omega
        simp [ha, hn]
  refine ⟨hmain, ?_⟩
  intro w2 r heq
  rw [hmain] at heq
  rcases hscrut : ensureSteps fuel env
      { w with trace := w.trace ++ [Event.invoked n] } req with ⟨w3, r3⟩
  rw [hscrut] at heq
  cases r3 <;> simp at heq

/-- C2: for every retried attempt (num_retries >= 1, within the retry guard),
`__api_request_retry` evaluates line 123, `" attempt #" + (num_retries + 1)`,
string concatenation with an int, and therefore raises TypeError right after
the ensure phase and before the retried request is sent: if the ensure phase
succeeds the attempt returns the TypeError with no further state change, and
in no case does a retried attempt return a payload, so no recovery is ever
followed by a successfully re-sent request. -/
theorem retried_attempt_type_error (fuel : Nat) (env : Env) (w : World) (req : Req)
    (n : Nat) (h1 : 1 ≤ n) (h2 : n ≤ MAX_RETRIES) :
    step (fuel + 1) env w (Call.apiRetry req n) =
      (match ensureSteps fuel env
          { w with trace := w.trace ++ [Event.invoked n] } req with
       | (w2, .ok _) => (w2, .error .typeError)
       | (w2, .error e) => (w2, .error e)) ∧
    ∀ w2 r, step (fuel + 1) env w (Call.apiRetry req n) ≠ (w2, .ok r) :=
  apiRetry_pos_typeError fuel env w req n h1 h2

/-- Closed instance of the retried-attempt theorem at num_retries = 1 and a
request needing no keys and no auth, so the ensure phase succeeds with no
fuel. -/
theorem retried_attempt_type_error_witness :
    step 1 baseEnv keysWorld (Call.apiRetry checkVersionReq 1) =
      (match ensureSteps 0 baseEnv
          { keysWorld with trace := keysWorld.trace ++ [Event.invoked 1] }
          checkVersionReq with
       | (w2, .ok _) => (w2, .error .typeError)
       | (w2, .error e) => (w2, .error e)) ∧
    ∀ w2 r, step 1 baseEnv keysWorld (Call.apiRetry checkVersionReq 1) ≠ (w2, .ok r) :=
  retried_attempt_type_error 0 baseEnv keysWorld checkVersionReq 1 (by decide) (by decide)

/-- World after the first transmission of an attempt at num_retries = 0:
entry event, send event, send cursor advanced. -/
def afterSend (w : World) (req : Req) : World :=
  ⟨w.conn, w.sendIdx + 1, w.loginIdx,
    (w.trace ++ [Event.invoked 0]) ++ [Event.apiSent req.uri]⟩

/-- A first attempt (num_retries = 0) with both keys present and no auth:
the ensure phase is a no-op, the request is sent, and the attempt continues
per the classification of the response. -/
theorem apiRetry0_with_keys (fuel : Nat) (env : Env) (w : World) (req : Req)
    (e s : String) (he : w.conn.enc_key = some e) (he0 : e ≠ "")
    (hs : w.conn.sign_key = some s) (hs0 : s ≠ "") (hauth : req.needs_auth = false) :
    step (fuel + 2) env w (Call.apiRetry req 0) =
      (match classifyResp (env.send w.sendIdx) with
       | .ok result => (afterSend w req, .ok result)
       | .error (.apiEncryption _) =>
         (match step (fuel + 1) env (afterSend w req) Call.retrieveKeys with
          | (w4, .error e2) => (w4, .error e2)
          | (w4, .ok _) => step (fuel + 1) env w4 (Call.apiRetry req 1))
       | .error (.tokenExpired _) =>
         (match loginRun env (afterSend w req) with
          | (w4, .error e2) => (w4, .error e2)
          | (w4, .ok _) => step (fuel + 1) env w4 (Call.apiRetry req 1))
       | .error e2 => (afterSend w req, .error e2)) := by
  conv_lhs => rw [step]
  rw [if_neg (by decide)]
  have hkeys : (if req.needs_keys
      then step (fuel + 1) env { w with trace := w.trace ++ [Event.invoked 0] }
        Call.ensureKeys
      else ({ w with trace := w.trace ++ [Event.invoked 0] }, Except.ok [])) =
      ({ w with trace := w.trace ++ [Event.invoked 0] }, Except.ok []) := by
    by_cases hk : req.needs_keys
    · rw [if_pos hk,
        step_ensureKeys_present fuel env { w with trace := w.trace ++ [Event.invoked 0] }
          e s he hs]
    · rw [if_neg hk]
  rw [hkeys, hauth]
  simp only [Bool.false_eq_true, if_false]
  rw [sendApiRequest_keys env { w with trace := w.trace ++ [Event.invoked 0] } req e s
    he he0 hs hs0]
  cases hc : classifyResp (env.send w.sendIdx) with
  | ok v => rfl
  | error e2 => cases e2 <;> rfl

/-- A key-retrieval round trip whose checkVersion transmission succeeds with a
payload carrying both keys: one retrieval event, one nested attempt, one send,
both keys stored. -/
theorem retrieveKeys_success (fuel : Nat) (env : Env) (w : World) (e s ek sk : String)
    (he : w.conn.enc_key = some e) (he0 : e ≠ "") (hs : w.conn.sign_key = some s)
    (hs0 : s ≠ "")
    (hok : (env.send w.sendIdx).state = "S")
    (hekv : ((env.send w.sendIdx).payload).lookup "encKey" = some ek)
    (hskv : ((env.send w.sendIdx).payload).lookup "signKey" = some sk) :
    step (fuel + 3) env w Call.retrieveKeys =
      (⟨⟨some ek, some sk, w.conn.access_token, w.conn.access_token_expiration_ts⟩,
        w.sendIdx + 1, w.loginIdx,
        ((w.trace ++ [Event.retrieveKeysCalled]) ++ [Event.invoked 0]) ++
          [Event.apiSent "service/checkVersion"]⟩, .ok []) := by
  conv_lhs => rw [step]
  rw [apiRetry0_with_keys fuel env
    { w with trace := w.trace ++ [Event.retrieveKeysCalled] } checkVersionReq e s
    he he0 hs hs0 rfl]
  have hc : classifyResp (env.send w.sendIdx) = .ok (env.send w.sendIdx).payload := by
    rw [classifyResp, if_pos hok]
  simp only [afterSend, hc, hekv, hskv, checkVersionReq]

/-- C3: a request whose first attempt yields server error 600001, with both
session keys present, no auth requirement, and a key-retrieval round trip that
succeeds: the pipeline performs exactly one key retrieval (one
`retrieveKeysCalled` event, served by one checkVersion transmission) and no
login between the failed first transmission and the re-invocation at
num_retries = 1, stores the two retrieved keys, and the retried attempt then
stops at the line 123 TypeError before any further transmission. -/
theorem first_attempt_600001_recovery (fuel : Nat) (env : Env) (w : World) (req : Req)
    (e0 s0 ek sk : String)
    (he : w.conn.enc_key = some e0) (he0 : e0 ≠ "")
    (hs : w.conn.sign_key = some s0) (hs0 : s0 ≠ "")
    (hauth : req.needs_auth = false)
    (hfail : (env.send w.sendIdx).state ≠ "S")
    (hcode : (env.send w.sendIdx).errorCode = 600001)
    (hok : (env.send (w.sendIdx + 1)).state = "S")
    (hekv : ((env.send (w.sendIdx + 1)).payload).lookup "encKey" = some ek)
    (hskv : ((env.send (w.sendIdx + 1)).payload).lookup "signKey" = some sk) :
    apiRequest (fuel + 4) env w req =
      (⟨⟨some ek, some sk, w.conn.access_token, w.conn.access_token_expiration_ts⟩,
        w.sendIdx + 2, w.loginIdx,
        w.trace ++ [Event.invoked 0, Event.apiSent req.uri, Event.retrieveKeysCalled,
          Event.invoked 0, Event.apiSent "service/checkVersion", Event.invoked 1]⟩,
       .error .typeError) := by
  have hc1 : classifyResp (env.send w.sendIdx) =
      .error (.apiEncryption "Server rejected encrypted request") := by
    rw [classifyResp, if_neg hfail, if_pos hcode]
  rw [apiRequest, apiRetry0_with_keys (fuel + 2) env w req e0 s0 he he0 hs hs0 hauth,
    hc1]
  rw [retrieveKeys_success fuel env (afterSend w req) e0 s0 ek sk he he0 hs hs0
    hok hekv hskv]
  have htail := fun (wq : World) =>
    (apiRetry_pos_typeError (fuel + 2) env wq req 1 (by omega)
      (by simp [MAX_RETRIES])).1
  have hens : ∀ wq : World, wq.conn.enc_key = some ek → wq.conn.sign_key = some sk →
      req.needs_auth = false → ensureSteps (fuel + 2) env wq req = (wq, .ok ()) := by
    intro wq hq1 hq2 hq3
    rw [ensureSteps]
    have hkeys2 : (if req.needs_keys then step (fuel + 2) env wq Call.ensureKeys
        else (wq, Except.ok [])) = (wq, Except.ok []) := by
      by_cases hk : req.needs_keys
      · rw [if_pos hk, step_ensureKeys_present (fuel + 1) env wq ek sk hq1 hq2]
      · rw [if_neg hk]
    rw [hkeys2]
    simp [hq3]
  simp only [htail]
  simp [hens, hauth, afterSend, List.append_assoc]

/-- Spec section 3 invariant: encryption key and signing key are both set or
both unset. -/
def keysTogether (c : ConnState) : Prop := c.enc_key.isSome = c.sign_key.isSome

theorem loginRun_keysTogether (env : Env) (w : World) (hw : keysTogether w.conn) :
    keysTogether ((loginRun env w).1.conn) := by
  cases hu : env.usherKey w.loginIdx with
  | none => simp only [loginRun, hu]; exact hw
  | some pk =>
    simp only [loginRun, hu]
    split_ifs
    · exact hw
    · exact hw
    · exact hw
    · cases hd : (env.loginResp w.loginIdx).data with
      | none => simp only [hd]; exact hw
      | some td => simp only [hd]; exact hw

theorem ensureTokenRun_keysTogether (env : Env) (w : World) (hw : keysTogether w.conn) :
    keysTogether ((ensureTokenRun env w).1.conn) := by
  rw [ensureTokenRun]
  split
  · exact loginRun_keysTogether env w hw
  · exact hw

theorem sendApiRequest_conn (env : Env) (w : World) (req : Req) :
    (sendApiRequest env w req).1.conn = w.conn := by
  rw [sendApiRequest]
  dsimp only
  repeat' split
  all_goals rfl

theorem classifyResp_ok {r : SendResponse} {p : List (String × String)}
    (h : classifyResp r = .ok p) : p = r.payload := by
  rw [classifyResp] at h
  split_ifs at h <;> simp at h
  exact h.symm

/-- An ok result of `__send_api_request` carries the payload of the consumed
server response (the state = "S" branch, lines 180-184). -/
theorem sendApiRequest_ok_payload {env : Env} {w : World} {req : Req} {w2 : World}
    {p : List (String × String)} (h : sendApiRequest env w req = (w2, .ok p)) :
    p = (env.send w.sendIdx).payload := by
  rw [sendApiRequest] at h
  dsimp only at h
  repeat' split at h
  all_goals simp at h
  exact classifyResp_ok h.2

/-- No pipeline call at num_retries = 1 ever returns a payload (line 123
TypeError, or fuel exhaustion). -/
theorem apiRetry1_never_ok (f : Nat) (env : Env) (w : World) (req : Req)
    (w2 : World) (r : List (String × String)) :
    step f env w (Call.apiRetry req 1) ≠ (w2, .ok r) := by
  cases f with
  | zero => intro h; rw [step] at h; simp at h
  | succ f =>
    exact (apiRetry_pos_typeError f env w req 1 (by omega) (by simp [MAX_RETRIES])).2 w2 r

/-- An ok result of the nested checkVersion pipeline call is the payload of
some server response: the only ok exit is the first transmission (any retried
attempt dies at the line 123 TypeError). -/
theorem checkVersion_ok_payload (fuel : Nat) (env : Env) (w : World) (w2 : World)
    (p : List (String × String))
    (heq : step fuel env w (Call.apiRetry checkVersionReq 0) = (w2, .ok p)) :
    ∃ k, p = (env.send k).payload := by
  cases fuel with
  | zero => rw [step] at heq; simp at heq
  | succ f =>
    rw [step] at heq
    rw [if_neg (by decide)] at heq
    simp only [checkVersionReq, Bool.false_eq_true, if_false] at heq
    rw [if_neg (by decide)] at heq
    split at heq
    · rename_i heq3
      simp only [Prod.mk.injEq, Except.ok.injEq] at heq
      exact ⟨_, heq.2.symm.trans (sendApiRequest_ok_payload heq3)⟩
    · rename_i heq3
      split at heq
      · simp at heq
      · exact absurd heq (apiRetry1_never_ok f env _ checkVersionReq w2 p)
    · rename_i heq3
      split at heq
      · simp at heq
      · exact absurd heq (apiRetry1_never_ok f env _ checkVersionReq w2 p)
    · simp at heq

/-- Environments whose response payloads never carry an encKey without a
signKey; the spec (section 4.2) has key retrieval always yield the pair. -/
def goodKeyPayloads (env : Env) : Prop :=
  ∀ n, (List.lookup "encKey" (env.send n).payload).isSome = true →
    (List.lookup "signKey" (env.send n).payload).isSome = true

theorem step_preserves_keysTogether :
    ∀ (fuel : Nat) (env : Env) (w : World) (c : Call), goodKeyPayloads env →
      keysTogether w.conn → keysTogether ((step fuel env w c).1.conn) := by
  intro fuel
  induction fuel with
  | zero => intro env w c _ hw; exact hw
  | succ fuel ih =>
    intro env w c henv hw
    cases c with
    | ensureKeys =>
      rw [step]
      split
      · exact ih env w Call.retrieveKeys henv hw
      · exact hw
    | retrieveKeys =>
      rw [step]
      have hInner : ∀ w2 r2, step fuel env
          { w with trace := w.trace ++ [Event.retrieveKeysCalled] }
          (Call.apiRetry checkVersionReq 0) = (w2, r2) → keysTogether w2.conn := by
        intro w2 r2 heq
        have h := ih env { w with trace := w.trace ++ [Event.retrieveKeysCalled] }
          (Call.apiRetry checkVersionReq 0) henv hw
        rw [heq] at h
        exact h
      split
      next w2 e heq => exact hInner w2 _ heq
      next w2 resp heq =>
        have hw2 := hInner w2 _ heq
        split
        · exact hw2
        · rename_i ek heqe
          split
          · rename_i heqs
            exfalso
            obtain ⟨k, hk⟩ := checkVersion_ok_payload fuel env _ w2 resp heq
            have h1 : (List.lookup "encKey" resp).isSome = true := by rw [heqe]; rfl
            have h2 := henv k (by rw [← hk]; exact h1)
            rw [← hk, heqs] at h2
            simp at h2
          · rfl
    | apiRetry req n =>
      have hEnsure : ∀ w1 r1, (if req.needs_keys = true then
          step fuel env { w with trace := w.trace ++ [Event.invoked n] } Call.ensureKeys
          else ({ w with trace := w.trace ++ [Event.invoked n] }, Except.ok [])) =
          (w1, r1) → keysTogether w1.conn := by
        intro w1 r1 heq
        by_cases hk : req.needs_keys
        · rw [if_pos hk] at heq
          have h := ih env { w with trace := w.trace ++ [Event.invoked n] }
            Call.ensureKeys henv hw
          rw [heq] at h
          exact h
        · rw [if_neg hk] at heq
          cases heq
          exact hw
      have hAuth : ∀ w1, keysTogether w1.conn → ∀ w2 r2,
          (if req.needs_auth = true then ensureTokenRun env w1 else (w1, Except.ok ())) =
          (w2, r2) → keysTogether w2.conn := by
        intro w1 hw1 w2 r2 heq
        by_cases ha : req.needs_auth
        · rw [if_pos ha] at heq
          have h := ensureTokenRun_keysTogether env w1 hw1
          rw [heq] at h
          exact h
        · rw [if_neg ha] at heq
          cases heq
          exact hw1
      have hSend : ∀ w2, keysTogether w2.conn → ∀ w3 r3,
          sendApiRequest env w2 req = (w3, r3) → keysTogether w3.conn := by
        intro w2 hw2 w3 r3 heq
        have h := sendApiRequest_conn env w2 req
        rw [heq] at h
        rw [keysTogether, h]
        exact hw2
      have hRetr : ∀ w3, keysTogether w3.conn → ∀ w4 r4,
          step fuel env w3 Call.retrieveKeys = (w4, r4) → keysTogether w4.conn := by
        intro w3 hw3 w4 r4 heq
        have h := ih env w3 Call.retrieveKeys henv hw3
        rw [heq] at h
        exact h
      have hLogin : ∀ w3, keysTogether w3.conn → ∀ w4 r4,
          loginRun env w3 = (w4, r4) → keysTogether w4.conn := by
        intro w3 hw3 w4 r4 heq
        have h := loginRun_keysTogether env w3 hw3
        rw [heq] at h
        exact h
      rw [step]
      split
      · exact hw
      · split
        next w1 e heq => exact hEnsure w1 _ heq
        next w1 u heq =>
          have hw1 := hEnsure w1 _ heq
          split
          next w2 e2 heq2 => exact hAuth w1 hw1 w2 _ heq2
          next w2 u2 heq2 =>
            have hw2 := hAuth w1 hw1 w2 _ heq2
            split
            · exact hw2
            · split
              all_goals rename_i heq3
              all_goals have hw3 := hSend w2 hw2 _ _ heq3
              all_goals try exact hw3
              all_goals split
              all_goals rename_i heq4
              all_goals first
              | exact hRetr _ hw3 _ _ heq4
              | exact hLogin _ hw3 _ _ heq4
              | exact ih env _ (Call.apiRetry req (n + 1)) henv (hRetr _ hw3 _ _ heq4)
              | exact ih env _ (Call.apiRetry req (n + 1)) henv (hLogin _ hw3 _ _ heq4)

/-- World fixture at the freshly constructed state. -/
def initWorld : World := { conn := initConn, sendIdx := 0, loginIdx := 0, trace := [] }

/-- Oracle whose checkVersion response payload carries an encKey but no
signKey. -/
def encOnlyEnv : Env :=
  { baseEnv with send :=
      fun _ => { state := "S", payload := [("encKey", "x")], errorCode := 0 } }

/-- C7 counterexample: starting from the fresh state (both keys unset, so the
invariant holds), one key retrieval whose response payload contains encKey
but no signKey leaves the encryption key set and the signing key unset: the
enc_key assignment on line 205 completes before the signKey lookup on line
206 raises KeyError, so the operation assigns one key without the other. -/
theorem keys_set_together_counterexample :
    keysTogether initWorld.conn ∧
    ¬ keysTogether ((step 2 encOnlyEnv initWorld Call.retrieveKeys).1.conn) := by
  constructor
  · rfl
  · rw [keysTogether]
    decide

/-- C7 (amended): the predicate "encryption key and signing key are both set
or both unset" holds initially and is preserved by every operation of the
client - the pipeline interpreter (covering `__api_request_retry`,
`__ensure_keys_present` and `__retrieve_keys`, the only writer of the two
keys), `login`, `__ensure_token_is_valid` and `__send_api_request` - provided
every server response payload that contains an encKey also contains a
signKey; without that proviso the enc_key assignment (line 205) precedes the
signKey lookup (line 206) and a partial payload sets one key alone. -/
theorem keys_set_together :
    keysTogether initConn ∧
    (∀ fuel env w c, goodKeyPayloads env → keysTogether w.conn →
      keysTogether ((step fuel env w c).1.conn)) ∧
    (∀ env w, keysTogether w.conn → keysTogether ((loginRun env w).1.conn)) ∧
    (∀ env w, keysTogether w.conn → keysTogether ((ensureTokenRun env w).1.conn)) ∧
    (∀ env w req, keysTogether w.conn → keysTogether ((sendApiRequest env w req).1.conn)) :=
  ⟨rfl, step_preserves_keysTogether,
   loginRun_keysTogether, ensureTokenRun_keysTogether,
   fun env w req hw => by rw [keysTogether, sendApiRequest_conn env w req]; exact hw⟩

/-- Closed instance: under an oracle whose payloads always carry both keys,
the invariant holds after running a full pipeline call from a state
satisfying it. -/
theorem keys_set_together_witness :
    keysTogether ((step 3 baseEnv keysWorld (Call.apiRetry checkVersionReq 0)).1.conn) :=
  keys_set_together.2.1 3 baseEnv keysWorld (Call.apiRetry checkVersionReq 0)
    (fun _ h => by exact h ▸ rfl) rfl

/-- Request fixture for the pipeline scenarios. -/
def getReq : Req :=
  { method := "GET", uri := "remoteServices/getVehicleStatus/v4",
    query := [], body := [], needs_keys := true, needs_auth := false }

/-- Oracle for the recovery scenario: the first transmission fails with
600001, the second (the checkVersion retrieval) succeeds with fresh keys. -/
def env600001 : Env :=
  { baseEnv with send := fun n => if n = 0 then respE1 else respS }

/-- Closed instance of the 600001-recovery theorem: exactly one key
retrieval, no login, keys stored, and the retried attempt stops at the
TypeError. -/
theorem first_attempt_600001_recovery_witness :
    apiRequest 4 env600001 keysWorld getReq =
      (⟨⟨some "ek2", some "sk2", keysWorld.conn.access_token,
         keysWorld.conn.access_token_expiration_ts⟩,
        keysWorld.sendIdx + 2, keysWorld.loginIdx,
        keysWorld.trace ++ [Event.invoked 0,
          Event.apiSent "remoteServices/getVehicleStatus/v4",
          Event.retrieveKeysCalled, Event.invoked 0,
          Event.apiSent "service/checkVersion", Event.invoked 1]⟩,
       .error .typeError) :=
  first_attempt_600001_recovery 0 env600001 keysWorld getReq "k1" "s1" "ek2" "sk2"
    rfl (by decide) rfl (by decide) rfl (by decide) (by decide) (by decide) (by decide)
    (by decide)

/-- Oracle for the retry-exhaustion scenario of claim C1: the server answers
the request with 600001, the key retrieval succeeds, and any further request
attempts would see alternating 600002/600001 codes. -/
def c1Env : Env :=
  { baseEnv with send := fun n =>
      if n = 0 then respE1 else if n = 1 then respS
      else if n % 2 = 0 then respE2 else respE1 }

/-- C1 evaluated at its failing input: the first attempt fails with 600001
and recovery succeeds, but the retried attempt raises TypeError (line 123,
string + int) before any second transmission of the request, so the
alternating 600001/600002/600001/600002 scenario of the claim can never
reach four attempts, and the "exceeded retries" failure is never produced;
the code diverges from the claimed retry design. -/
theorem retry_budget_never_reached :
    (apiRequest 10 c1Env keysWorld getReq).2 = .error .typeError ∧
    (apiRequest 10 c1Env keysWorld getReq).1.trace =
      [Event.invoked 0, Event.apiSent "remoteServices/getVehicleStatus/v4",
       Event.retrieveKeysCalled, Event.invoked 0, Event.apiSent "service/checkVersion",
       Event.invoked 1] ∧
    ((apiRequest 10 c1Env keysWorld getReq).1.trace.filter
      (fun e => e == Event.apiSent "remoteServices/getVehicleStatus/v4")).length = 1 ∧
    (apiRequest 10 c1Env keysWorld getReq).2 ≠
      .error (.mazda "Request exceeded max number of retries") := by
  refine ⟨by decide, by decide, by decide, by decide⟩

end Pymazda